import Mathlib

/-!
Verification development for the gocnc toolpath virtual machine (package vm).

The embedding translates the Go sources (vm/positioning.go, vm/utils.go and
the optimizer file) into pure Lean functions.  Machine floating point
(float64) is idealised as exact rational arithmetic; the transcendental
operations (sqrt, atan2, cos, sin, acos) and the constant pi have no exact
rational counterpart, so functions that use them are parametrised by a
record of rational stand-ins, and concrete evaluations instantiate the
record at points where the real operations are exact (perfect squares and
the like).  Division by zero yields 0, as usual for Rat; every place where
the Go code would hit such a case is noted in a comment.

Types that the optimizer and interpreter use but whose defining Go file is
not part of the sources at hand (Machine, Position, State, the coordinate
system and the utils vector type) are modelled from the specification; each
such definition carries a doc comment saying so.
-/

namespace GoCNC

/-- Modelled from the spec: the motion-mode enumeration of the Modal State
(none, rapid, linear, clockwise-arc, counterclockwise-arc, dwell). -/
inductive MoveMode where
  | none
  | rapid
  | linear
  | cwArc
  | ccwArc
  | dwell
deriving DecidableEq

/-- Modelled from the spec: the Modal State carried by every waypoint
(motion mode, feedrate, spindle flags and speed, coolant flags, tool
indices, dwell duration). -/
structure State where
  moveMode : MoveMode
  feedrate : ℚ
  spindleEnabled : Bool
  spindleClockwise : Bool
  spindleSpeed : ℚ
  mistCoolant : Bool
  floodCoolant : Bool
  toolIndex : Int
  nextToolIndex : Int
  dwellTime : ℚ
deriving DecidableEq

/-- Modelled from the spec: a waypoint of the toolpath, an absolute X, Y, Z
position together with a full copy of the Modal State.  Field order follows
the construction sites in positioning.go (State first, then X, Y, Z). -/
structure Position where
  state : State
  x : ℚ
  y : ℚ
  z : ℚ
deriving DecidableEq

/-- Modelled from the spec: the utils vector type used by the optimizer,
a plain 3-component vector. -/
structure Vec3 where
  x : ℚ
  y : ℚ
  z : ℚ
deriving DecidableEq

/-- Modelled from the spec: vector difference, used only under a norm. -/
def Vec3.diff (v o : Vec3) : Vec3 :=
  ⟨v.x - o.x, v.y - o.y, v.z - o.z⟩

/-- The Vector method of Position: the coordinate triple as a vector. -/
def Position.vec (p : Position) : Vec3 :=
  ⟨p.x, p.y, p.z⟩

/-- Modelled from the spec: the active working plane (one of three
axis-pairs). -/
inductive Plane where
  | XY
  | XZ
  | YZ
deriving DecidableEq

/-- Modelled from the spec: the Coordinate System, an offset vector plus the
one-shot override flag that forces absolute interpretation. -/
structure CoordinateSystem where
  x : ℚ
  y : ℚ
  z : ℚ
  overrideActive : Bool
deriving DecidableEq

/-- Modelled from the spec: the Machine Context bundling Modal State,
Coordinate System, unit mode, the two absolute-vs-relative flags, the
working plane, the arc tunables and the Toolpath. -/
structure Machine where
  state : State
  imperial : Bool
  absoluteMove : Bool
  absoluteArc : Bool
  movePlane : Plane
  maxArcDeviation : ℚ
  minArcLineLength : ℚ
  coordinateSystem : CoordinateSystem
  positions : List Position
deriving DecidableEq

/-- A default Modal State (Go zero value). -/
def State.default : State :=
  ⟨MoveMode.none, 0, false, false, 0, false, false, 0, 0, 0⟩

/-- A default waypoint at the machine origin. -/
def Position.origin : Position :=
  ⟨State.default, 0, 0, 0⟩

/-- curPos from positioning.go: the waypoint on top of the position stack.
The Go code indexes Positions[len-1] and would abort on an empty stack; the
embedding returns the origin in that unreachable case. -/
def curPos (vm : Machine) : Position :=
  vm.positions.getLastD Position.origin

/-- Modelled from the spec: one parsed command, exposing for each
single-letter field either its numeric value or its absence, matching the
field-accessor contract of the external parser (GetWord fails when the
field is absent, GetWordDefault substitutes a default). -/
structure Block where
  wx : Option ℚ
  wy : Option ℚ
  wz : Option ℚ
  wi : Option ℚ
  wj : Option ℚ
  wk : Option ℚ
deriving DecidableEq

/-- calcPos from positioning.go: resolves a command into absolute end
coordinates X, Y, Z and arc-center values I, J, K.  The coordinate-system
override forces absolute-move interpretation for this computation only.
Note that the Go source, in the absolute-arc branch, adds the coordinate
system Z offset to newZ (not to newK); the embedding reproduces this
faithfully. -/
def calcPos (vm : Machine) (stmt : Block) : ℚ × ℚ × ℚ × ℚ × ℚ × ℚ :=
  let pos := curPos vm
  let cs := vm.coordinateSystem
  let absMove := vm.coordinateSystem.overrideActive || vm.absoluteMove
  let newX :=
    match stmt.wx with
    | Option.none => pos.x
    | Option.some v =>
        let v := if vm.imperial then v * 25.4 else v
        if !absMove then v + pos.x else v + cs.x
  let newY :=
    match stmt.wy with
    | Option.none => pos.y
    | Option.some v =>
        let v := if vm.imperial then v * 25.4 else v
        if !absMove then v + pos.y else v + cs.y
  let newZ :=
    match stmt.wz with
    | Option.none => pos.z
    | Option.some v =>
        let v := if vm.imperial then v * 25.4 else v
        if !absMove then v + pos.z else v + cs.z
  let i0 := stmt.wi.getD 0
  let j0 := stmt.wj.getD 0
  let k0 := stmt.wk.getD 0
  let i1 := if vm.imperial then i0 * 25.4 else i0
  let j1 := if vm.imperial then j0 * 25.4 else j0
  let k1 := if vm.imperial then k0 * 25.4 else k0
  if !vm.absoluteArc then
    (newX, newY, newZ, i1 + pos.x, j1 + pos.y, k1 + pos.z)
  else
    (newX, newY, newZ + cs.z, i1 + cs.x, j1 + cs.y, k1)

/-- A state whose move mode is linear. -/
def State.lin : State :=
  { State.default with moveMode := MoveMode.linear }

/-- Machine for the C1 evaluation: absolute arc-center mode, coordinate
system offset (0, 0, 5), current position at the origin, metric units. -/
def mC1 : Machine :=
  { state := State.default, imperial := false, absoluteMove := true,
    absoluteArc := true, movePlane := Plane.XY, maxArcDeviation := 1,
    minArcLineLength := 1,
    coordinateSystem := ⟨0, 0, 5, false⟩,
    positions := [Position.origin] }

/-- Block for the C1 evaluation: only K is present, with value 2. -/
def bC1 : Block :=
  ⟨Option.none, Option.none, Option.none, Option.none, Option.none,
    Option.some 2⟩

/-- C1.  In absolute arc-center mode with coordinate offset (0,0,5),
current position (0,0,0) and a command carrying only K=2, calcPos returns
Z = 5 and K = 2: the offset Z component is added to the already-resolved Z
end coordinate instead of to the K arc-center value (the claim requires
Z = 0 and K = 7).  The relative-arc branch of the source does add I, J, K
to the previous position as the claim states; the divergence is confined
to the absolute-arc branch, where the source adds the offset to newZ
rather than newK. -/
theorem c1_absoluteArc_offset_goes_to_Z :
    calcPos mC1 bC1 = (0, 0, 5, 0, 0, 2) ∧ (5 : ℚ) ≠ 0 ∧ (2 : ℚ) ≠ 7 := by
  refine ⟨?_, by norm_num, by norm_num⟩
  norm_num [calcPos, mC1, bC1, curPos, Position.origin, State.default]

/-- Machine for the C8 counterexample: absolute move mode, coordinate
system offset (5, 0, 0), current position (1, 0, 0). -/
def mC8 : Machine :=
  { state := State.default, imperial := false, absoluteMove := true,
    absoluteArc := false, movePlane := Plane.XY, maxArcDeviation := 1,
    minArcLineLength := 1,
    coordinateSystem := ⟨5, 0, 0, false⟩,
    positions := [⟨State.lin, 1, 0, 0⟩] }

/-- A block with every field absent. -/
def bNone : Block :=
  ⟨Option.none, Option.none, Option.none, Option.none, Option.none,
    Option.none⟩

/-- C8 counterexample.  With absolute move mode active, offset X = 5 and
previous X = 1, a command with X absent resolves to X = 1, the bare
previous coordinate; the claim would apply the absolute adjustment to the
default as well, predicting 1 + 5 = 6. -/
theorem c8_absent_X_gets_no_adjustment :
    (calcPos mC8 bNone).1 = 1 ∧
      (curPos mC8).x + mC8.coordinateSystem.x = 6 ∧ (1 : ℚ) ≠ 6 := by
  refine ⟨?_, ?_, by norm_num⟩ <;>
    norm_num [calcPos, mC8, bNone, curPos, State.lin, State.default]

/-- C8 amended.  Absent X, Y or Z fields resolve to exactly the previous
waypoint coordinate, with no unit conversion and no relative/absolute
adjustment — except that in absolute arc-center mode the coordinate-system
Z offset is still added to the resolved Z (the defect recorded for C1).
Absent I, J, K default to zero and then receive the arc-center
relative/absolute adjustment, except that in absolute arc-center mode K
receives no offset at all. -/
theorem c8_absent_field_defaults (vm : Machine) (b : Block) :
    (b.wx = Option.none → (calcPos vm b).1 = (curPos vm).x) ∧
    (b.wy = Option.none → (calcPos vm b).2.1 = (curPos vm).y) ∧
    (b.wz = Option.none → (calcPos vm b).2.2.1 =
      (curPos vm).z + (if vm.absoluteArc then vm.coordinateSystem.z else 0)) ∧
    (b.wi = Option.none → (calcPos vm b).2.2.2.1 =
      (if vm.absoluteArc then vm.coordinateSystem.x else (curPos vm).x)) ∧
    (b.wj = Option.none → (calcPos vm b).2.2.2.2.1 =
      (if vm.absoluteArc then vm.coordinateSystem.y else (curPos vm).y)) ∧
    (b.wk = Option.none → (calcPos vm b).2.2.2.2.2 =
      (if vm.absoluteArc then (0 : ℚ) else (curPos vm).z)) := by
  unfold calcPos
  refine ⟨?_, ?_, ?_, ?_, ?_, ?_⟩ <;> intro h <;> rw [h] <;>
    cases hA : vm.absoluteArc <;> cases hI : vm.imperial <;>
    simp [Option.getD]

/-- C8 amended, witness: the amended theorem applied to the concrete
machine mC8 and the all-absent block, every absence hypothesis discharged
by rfl. -/
theorem c8_absent_field_defaults_witness :
    (calcPos mC8 bNone).1 = (curPos mC8).x ∧
      (calcPos mC8 bNone).2.1 = (curPos mC8).y ∧
      (calcPos mC8 bNone).2.2.1 = (curPos mC8).z +
        (if mC8.absoluteArc then mC8.coordinateSystem.z else 0) ∧
      (calcPos mC8 bNone).2.2.2.1 =
        (if mC8.absoluteArc then mC8.coordinateSystem.x else (curPos mC8).x) ∧
      (calcPos mC8 bNone).2.2.2.2.1 =
        (if mC8.absoluteArc then mC8.coordinateSystem.y else (curPos mC8).y) ∧
      (calcPos mC8 bNone).2.2.2.2.2 =
        (if mC8.absoluteArc then (0 : ℚ) else (curPos mC8).z) :=
  ⟨(c8_absent_field_defaults mC8 bNone).1 rfl,
    (c8_absent_field_defaults mC8 bNone).2.1 rfl,
    (c8_absent_field_defaults mC8 bNone).2.2.1 rfl,
    (c8_absent_field_defaults mC8 bNone).2.2.2.1 rfl,
    (c8_absent_field_defaults mC8 bNone).2.2.2.2.1 rfl,
    (c8_absent_field_defaults mC8 bNone).2.2.2.2.2 rfl⟩

/-- The zero-radius rejection of arc from positioning.go: either the
center-to-start radius or the center-to-end radius is zero. -/
def radiusZeroReject (radius1 radius2 : ℚ) : Bool :=
  decide (radius1 = 0) || decide (radius2 = 0)

/-- The radius-deviation rejection of arc from positioning.go: the source
computes deviation as the absolute relative difference times 100 and rDiff
as the absolute difference, and rejects when (rDiff above 0.005 and
deviation above 0.1) or rDiff above 0.5. -/
def radiusDeviationReject (radius1 radius2 : ℚ) : Bool :=
  (decide (|radius2 - radius1| > 0.005) &&
      decide (|(radius2 - radius1) / radius1| * 100 > 0.1)) ||
    decide (|radius2 - radius1| > 0.5)

/-- Arc radius validation failure, the disjunction of the two rejection
conditions performed by arc in positioning.go. -/
def arcRadiusReject (radius1 radius2 : ℚ) : Bool :=
  radiusZeroReject radius1 radius2 || radiusDeviationReject radius1 radius2

/-- Modelled from the spec words, for refinement comparison only: a radius
is zero, or the radii disagree beyond tolerance, the disagreement test
being (difference above 0.005 mm and relative deviation above 0.1 percent,
the latter phrased as a relative fraction above 0.001) or difference above
0.5 mm. -/
def specArcReject (radius1 radius2 : ℚ) : Bool :=
  (decide (radius1 = 0) || decide (radius2 = 0)) ||
    ((decide (|radius2 - radius1| > 0.005) &&
        decide (|(radius2 - radius1) / radius1| > 0.001)) ||
      decide (|radius2 - radius1| > 0.5))

/-- C5.  Arc radius validation rejects exactly per the spec condition: the
source test, which scales the relative deviation by 100 before comparing
against 0.1, agrees with the spec reading (relative deviation above 0.1
percent) at every pair of radii; and the quoted example, start radius 10.0
against end radius 10.6, is rejected, not for a zero radius but for the
0.6 mm difference. -/
theorem c5_arc_radius_validation :
    (∀ radius1 radius2 : ℚ,
        arcRadiusReject radius1 radius2 = specArcReject radius1 radius2) ∧
      arcRadiusReject 10 10.6 = true ∧ radiusZeroReject 10 10.6 = false := by
  have h6 : |(10.6 : ℚ) - 10| = 0.6 := by
    rw [show (10.6 : ℚ) - 10 = 0.6 by norm_num]
    exact abs_of_nonneg (by norm_num)
  refine ⟨?_, ?_, ?_⟩
  · intro radius1 radius2
    unfold arcRadiusReject radiusZeroReject radiusDeviationReject specArcReject
    have hc : decide (|(radius2 - radius1) / radius1| * 100 > (0.1 : ℚ)) =
        decide (|(radius2 - radius1) / radius1| > (0.001 : ℚ)) := by
      simp only [decide_eq_decide]
      constructor <;> intro h <;> [linarith; linarith]
    rw [hc]
  · unfold arcRadiusReject radiusZeroReject radiusDeviationReject
    rw [h6]
    norm_num
  · unfold radiusZeroReject
    norm_num

/-- Truncation toward zero: the Go conversion from a float to int, applied
in arc to the minimum-segment step count. -/
def ratTrunc (q : ℚ) : Int :=
  if 0 ≤ q then ⌊q⌋ else ⌈q⌉

/-- Rational stand-ins for the transcendental operations used by arc.  The
theorems about arc hold for every choice of stand-ins; concrete witnesses
instantiate them at points where the real operations are exact. -/
structure TrigOps where
  sqrt : ℚ → ℚ
  atan2 : ℚ → ℚ → ℚ
  cos : ℚ → ℚ
  sin : ℚ → ℚ
  acos : ℚ → ℚ
  pi : ℚ

/-- The validation failures of arc in positioning.go, which the Go code
raises by aborting; keyed by the three distinct messages. -/
inductive ArcErr where
  | rotationsLessThanOne
  | invalidArc
  | radiusDeviation
deriving DecidableEq

/-- The per-plane emit closure of arc: maps the local (primary, secondary,
depth) triple back to machine X, Y, Z, exactly as the three add closures in
positioning.go do. -/
def planeAdd (plane : Plane) (st : State) (a b c : ℚ) : Position :=
  match plane with
  | Plane.XY => ⟨st, a, b, c⟩
  | Plane.XZ => ⟨st, b, c, a⟩
  | Plane.YZ => ⟨st, c, a, b⟩

/-- The waypoint sequence emitted by arc in positioning.go once validation
has passed: the interpolated points for step indices 0..steps inclusive
(provided steps is positive) followed by the unconditional final emission
of the end point.  Every emitted waypoint carries the Modal State with the
move mode forced to linear, as the source does.  Where the Go float math
divides by zero (a zero sweep angle or a zero acos value) the rational
embedding yields 0; those branches influence only the intermediate step
count, never the final emission. -/
def arcMoves (ops : TrigOps) (vm : Machine) (x y z i j k rot : ℚ) :
    List Position :=
  let sp := curPos vm
  let clockwise : Bool := decide (vm.state.moveMode = MoveMode.cwArc)
  let st := { vm.state with moveMode := MoveMode.linear }
  match vm.movePlane with
  | Plane.XY => arcMovesAux ops st Plane.XY clockwise vm.maxArcDeviation
      vm.minArcLineLength rot sp.x sp.y sp.z x y z i j
  | Plane.XZ => arcMovesAux ops st Plane.XZ clockwise vm.maxArcDeviation
      vm.minArcLineLength rot sp.z sp.x sp.y z x y k i
  | Plane.YZ => arcMovesAux ops st Plane.YZ clockwise vm.maxArcDeviation
      vm.minArcLineLength rot sp.y sp.z sp.x y z x j k
where
  /-- The plane-independent core, on the local coordinates s1 s2 s3
  (start), e1 e2 e3 (end) and c1 c2 (center). -/
  arcMovesAux (ops : TrigOps) (st : State) (plane : Plane)
      (clockwise : Bool) (maxDev minLen rot s1 s2 s3 e1 e2 e3 c1 c2 : ℚ) :
      List Position :=
    let radius1 := ops.sqrt ((c1 - s1) ^ 2 + (c2 - s2) ^ 2)
    let theta1 := ops.atan2 (s2 - c2) (s1 - c1)
    let theta2 := ops.atan2 (e2 - c2) (e1 - c1)
    let ad0 := theta2 - theta1
    let ad1 :=
      if ad0 < 0 ∧ clockwise = false then ad0 + 2 * ops.pi
      else if ad0 > 0 ∧ clockwise = true then ad0 - 2 * ops.pi
      else ad0
    let rotations := rot - 1
    let angleDiff :=
      if clockwise then ad1 - rotations * 2 * ops.pi
      else ad1 + rotations * 2 * ops.pi
    let steps1 : Int :=
      if maxDev < radius1 then
        ⌈|angleDiff / (2 * ops.acos (1 - maxDev / radius1))|⌉
      else 1
    let arcLen := |angleDiff| * ops.sqrt (radius1 ^ 2 + ((e3 - s3) / angleDiff) ^ 2)
    let steps2 : Int := ratTrunc (arcLen / minLen)
    let steps := if steps1 > steps2 then steps2 else steps1
    let pts :=
      if steps > 0 then
        (List.range (steps.toNat + 1)).map fun n =>
          let angle := theta1 + angleDiff / (steps : ℚ) * (n : ℚ)
          planeAdd plane st (c1 + radius1 * ops.cos angle)
            (c2 + radius1 * ops.sin angle)
            (s3 + (e3 - s3) / (steps : ℚ) * (n : ℚ))
      else []
    pts ++ [planeAdd plane st e1 e2 e3]

/-- The validation performed by arc in positioning.go, in source order:
the rotation count must be at least 1, neither radius may be zero, and the
radii must agree within tolerance.  Returns the failure, if any. -/
def arcCheck (ops : TrigOps) (vm : Machine) (x y z i j k rot : ℚ) :
    Option ArcErr :=
  let sp := curPos vm
  let rc : ℚ × ℚ :=
    match vm.movePlane with
    | Plane.XY => (((i - sp.x) ^ 2 + (j - sp.y) ^ 2), ((i - x) ^ 2 + (j - y) ^ 2))
    | Plane.XZ => (((k - sp.z) ^ 2 + (i - sp.x) ^ 2), ((k - z) ^ 2 + (i - x) ^ 2))
    | Plane.YZ => (((j - sp.y) ^ 2 + (k - sp.z) ^ 2), ((j - y) ^ 2 + (k - z) ^ 2))
  let radius1 := ops.sqrt rc.1
  let radius2 := ops.sqrt rc.2
  if rot < 1 then Option.some ArcErr.rotationsLessThanOne
  else if radiusZeroReject radius1 radius2 then Option.some ArcErr.invalidArc
  else if radiusDeviationReject radius1 radius2 then
    Option.some ArcErr.radiusDeviation
  else Option.none

/-- arc from positioning.go: validates the rotation count and the two
radii, then emits the approximation waypoints.  The Go code signals the
validation failures by aborting; the embedding returns them as errors, and
returns the emitted waypoint list (the positions the source appends to the
machine) on success. -/
def arc (ops : TrigOps) (vm : Machine) (x y z i j k rot : ℚ) :
    Except ArcErr (List Position) :=
  match arcCheck ops vm x y z i j k rot with
  | Option.some e => Except.error e
  | Option.none => Except.ok (arcMoves ops vm x y z i j k rot)

/-- C6.  For every valid arc request — any transcendental stand-ins, any
machine, any plane, whatever subdivision step count the chord-deviation
and minimum-segment rules produce — the last waypoint emitted by arc has
position exactly the requested absolute end point (x, y, z). -/
theorem c6_arc_last_is_endpoint (ops : TrigOps) (vm : Machine)
    (x y z i j k rot : ℚ) (l : List Position)
    (h : arc ops vm x y z i j k rot = Except.ok l) :
    ∃ p, l.getLast? = some p ∧ p.x = x ∧ p.y = y ∧ p.z = z := by
  unfold arc at h
  cases hc : arcCheck ops vm x y z i j k rot with
  | some e => rw [hc] at h; cases h
  | none =>
      rw [hc] at h
      have hl : l = arcMoves ops vm x y z i j k rot := by
        injection h with h
        exact h.symm
      subst hl
      unfold arcMoves
      rcases hp : vm.movePlane <;>
        simp [hp, arcMoves.arcMovesAux, planeAdd, List.getLast?_concat]

/-- Concrete transcendental stand-ins for the C6 witness: constant square
root 1, all angles 0, pi taken as 3; exactness of the stand-ins is
irrelevant to the property being witnessed. -/
def opsW : TrigOps :=
  ⟨fun _ => 1, fun _ _ => 0, fun _ => 0, fun _ => 0, fun _ => 0, 3⟩

/-- Machine for the C6 witness: clockwise arc mode in the XY plane from the
origin. -/
def mC6 : Machine :=
  { state := { State.default with moveMode := MoveMode.cwArc },
    imperial := false, absoluteMove := true, absoluteArc := false,
    movePlane := Plane.XY, maxArcDeviation := 2, minArcLineLength := 1,
    coordinateSystem := ⟨0, 0, 0, false⟩,
    positions := [Position.origin] }

/-- C6 witness: the end-point theorem applied to a concrete valid arc
request, whose emission evaluates to a single waypoint at the requested
end point (0, 2, 0). -/
theorem c6_arc_last_is_endpoint_witness :
    ∃ p, ([⟨State.lin, 0, 2, 0⟩] : List Position).getLast? = some p ∧
      p.x = 0 ∧ p.y = 2 ∧ p.z = 0 :=
  c6_arc_last_is_endpoint opsW mC6 0 2 0 1 0 0 1 [⟨State.lin, 0, 2, 0⟩] (by
    norm_num [arc, arcCheck, arcMoves, arcMoves.arcMovesAux, opsW, mC6,
      curPos, Position.origin, State.default, State.lin, radiusZeroReject,
      radiusDeviationReject, ratTrunc, planeAdd])

/-- The depth scan inside fastDrill of OptDrillSpeed: folds over the drill
stack looking for previous drills at the same X, Y whose Z lies strictly
below the running depth, which starts at the Go zero value 0.  Returns the
depth found and whether anything was found. -/
def drillScan (stack : List Position) (pos : Position) : ℚ × Bool :=
  stack.foldl
    (fun acc m =>
      if m.x = pos.x ∧ m.y = pos.y ∧ m.z < acc.1 then (m.z, true) else acc)
    (0, false)

/-- The scan of OptDrillSpeed from the optimizer, as structural recursion
over the remaining positions.  last holds the coordinates of the previous
position (Go zero values (0,0,0) initially) and stack is the drill stack
grown by every fastDrill call.  An (X,Y)-stationary strictly descending
linear move consults the stack: if an earlier drill reached at or below
its target the whole move turns rapid; if it goes deeper, a rapid move
down to the known depth is inserted before it; otherwise, and for every
other move, the position passes through unchanged. -/
def optDrillSpeedGo (last : ℚ × ℚ × ℚ) (stack : List Position) :
    List Position → List Position
  | [] => []
  | m :: rest =>
    if m.x = last.1 ∧ m.y = last.2.1 ∧ m.z < last.2.2 ∧
        m.state.moveMode = MoveMode.linear then
      let sc := drillScan stack m
      if sc.2 then
        if m.z ≥ sc.1 then
          { m with state := { m.state with moveMode := MoveMode.rapid } } ::
            optDrillSpeedGo (m.x, m.y, m.z) (stack ++ [m]) rest
        else
          { m with z := sc.1, state := { m.state with moveMode := MoveMode.rapid } } ::
            m :: optDrillSpeedGo (m.x, m.y, m.z) (stack ++ [m]) rest
      else
        m :: optDrillSpeedGo (m.x, m.y, m.z) (stack ++ [m]) rest
    else
      m :: optDrillSpeedGo (m.x, m.y, m.z) stack rest

/-- OptDrillSpeed from the optimizer, as a function on the stored waypoint
sequence. -/
def optDrillSpeed (ps : List Position) : List Position :=
  optDrillSpeedGo (0, 0, 0) [] ps

/-- A state whose move mode is rapid. -/
def stRapid : State :=
  { State.default with moveMode := MoveMode.rapid }

/-- Toolpath for the C3 counterexample: drill at (0,0) to depth -1, lift
to 1, then drill at (0,0) again to the deeper -2. -/
def tC3 : List Position :=
  [⟨stRapid, 0, 0, 1⟩, ⟨State.lin, 0, 0, -1⟩, ⟨stRapid, 0, 0, 1⟩,
    ⟨State.lin, 0, 0, -2⟩]

/-- C3 counterexample.  Drill-speed optimization is not idempotent: on a
toolpath that re-drills a location deeper than before, the first run
splits the second drill into a rapid move to depth -1 followed by the
linear move to -2; the second run, seeing the linear move to -2 descend
from the inserted rapid waypoint, inserts a second identical rapid
waypoint, so the waypoint sequences differ. -/
theorem c3_optDrillSpeed_not_idempotent :
    optDrillSpeed (optDrillSpeed tC3) ≠ optDrillSpeed tC3 := by
  decide

/-- True when, scanning from the given previous coordinates, no waypoint
triggers the drill rewrite of OptDrillSpeed: no waypoint repeats the X and
Y of its predecessor while strictly descending in linear mode. -/
def drillTriggerFreeB (last : ℚ × ℚ × ℚ) : List Position → Bool
  | [] => true
  | m :: rest =>
    (!decide (m.x = last.1 ∧ m.y = last.2.1 ∧ m.z < last.2.2 ∧
        m.state.moveMode = MoveMode.linear)) &&
      drillTriggerFreeB (m.x, m.y, m.z) rest

/-- On a trigger-free sequence the scan passes every waypoint through
unchanged, whatever the previous coordinates and drill stack. -/
theorem optDrillSpeedGo_of_triggerFree (ps : List Position) :
    ∀ last stack, drillTriggerFreeB last ps = true →
      optDrillSpeedGo last stack ps = ps := by
  induction ps with
  | nil => intro last stack _; rfl
  | cons m rest ih =>
      intro last stack h
      rw [drillTriggerFreeB, Bool.and_eq_true, Bool.not_eq_true'] at h
      simp only [optDrillSpeedGo]
      rw [if_neg (of_decide_eq_false h.1), ih _ _ h.2]

/-- C3 amended.  Drill-speed optimization is idempotent on every toolpath
on which the drill rewrite never triggers (no waypoint repeats the X and Y
of its predecessor while strictly descending in linear mode): there it is
the identity, so a second run changes nothing.  On toolpaths that
re-drill a location deeper than a previous drill it is not idempotent (see
the counterexample). -/
theorem c3_optDrillSpeed_idempotent_when_triggerFree (ps : List Position)
    (h : drillTriggerFreeB (0, 0, 0) ps = true) :
    optDrillSpeed ps = ps ∧
      optDrillSpeed (optDrillSpeed ps) = optDrillSpeed ps := by
  have h1 : optDrillSpeed ps = ps :=
    optDrillSpeedGo_of_triggerFree ps (0, 0, 0) [] h
  exact ⟨h1, by rw [h1]; exact h1⟩

/-- C3 amended, witness: a one-move toolpath that moves away from the
origin is trigger-free, and the pass leaves it unchanged twice over. -/
theorem c3_optDrillSpeed_idempotent_witness :
    optDrillSpeed [⟨State.lin, 1, 1, 1⟩] = [⟨State.lin, 1, 1, 1⟩] ∧
      optDrillSpeed (optDrillSpeed [⟨State.lin, 1, 1, 1⟩]) =
        optDrillSpeed [⟨State.lin, 1, 1, 1⟩] :=
  c3_optDrillSpeed_idempotent_when_triggerFree [⟨State.lin, 1, 1, 1⟩]
    (by decide)

/-- Replacement of the last kept waypoint, the npos[len(npos)-1] = m
assignment of OptBogusMoves.  On an empty list the Go code would abort;
that state is unreachable under a real square root, because a nonzero
delta then has a nonzero norm and the first motion is always appended
before any merge. -/
def setLast (l : List Position) (m : Position) : List Position :=
  l.dropLast ++ [m]

/-- The scan of OptBogusMoves from the optimizer.  sq stands in for the
square root; st carries the running x/y/z state, lastvec the tracked unit
direction (Go zero values initially) and npos the output built so far.
Waypoints that are neither rapid nor linear reset the direction and are
skipped; zero-length moves are skipped; a move whose direction equals the
tracked one replaces the last kept waypoint; anything else is appended. -/
def optBogusGo (sq : ℚ → ℚ) (st lastvec : ℚ × ℚ × ℚ)
    (npos : List Position) : List Position → List Position
  | [] => npos
  | m :: rest =>
    let dx := m.x - st.1
    let dy := m.y - st.2.1
    let dz := m.z - st.2.2
    if ¬m.state.moveMode = MoveMode.rapid ∧
        ¬m.state.moveMode = MoveMode.linear then
      optBogusGo sq (m.x, m.y, m.z) (0, 0, 0) npos rest
    else if dx = 0 ∧ dz = 0 ∧ dy = 0 then
      optBogusGo sq (m.x, m.y, m.z) lastvec npos rest
    else
      let norm := sq (dx ^ 2 + dy ^ 2 + dz ^ 2)
      let vec : ℚ × ℚ × ℚ := (dx / norm, dy / norm, dz / norm)
      if lastvec = vec then
        optBogusGo sq (m.x, m.y, m.z) lastvec (setLast npos m) rest
      else
        optBogusGo sq (m.x, m.y, m.z) vec (npos ++ [m]) rest

/-- OptBogusMoves from the optimizer, as a function on the stored waypoint
sequence, parametrised by the square-root stand-in. -/
def optBogusMoves (sq : ℚ → ℚ) (ps : List Position) : List Position :=
  optBogusGo sq (0, 0, 0) (0, 0, 0) [] ps

/-- A state whose move mode is dwell. -/
def stDwell : State :=
  { State.default with moveMode := MoveMode.dwell }

/-- The unit direction of the travel into a waypoint from the previous
coordinates, as OptBogusMoves computes it: the delta divided by the
square-root stand-in of its squared norm. -/
def moveDir (sq : ℚ → ℚ) (st : ℚ × ℚ × ℚ) (m : Position) : ℚ × ℚ × ℚ :=
  let dx := m.x - st.1
  let dy := m.y - st.2.1
  let dz := m.z - st.2.2
  let norm := sq (dx ^ 2 + dy ^ 2 + dz ^ 2)
  (dx / norm, dy / norm, dz / norm)

/-- The four fates the amended claim assigns to a waypoint: dropped as a
non-motion waypoint (resetting the tracked direction), dropped as a
zero-length move, merged — a direction-repeating move that replaces the
last retained waypoint, removing the earlier point in favour of its
successor — or kept. -/
inductive BogusVerdict where
  | dropNonMotion
  | dropZeroLen
  | mergeWithLast
  | keep
deriving DecidableEq

/-- Follows the amended claim: classify every waypoint of the input,
scanning with the previous coordinates and the tracked direction.  A
waypoint that is neither rapid nor linear is dropped and resets the
direction to zero; a zero-length move is dropped with the direction kept;
a move whose unit direction equals the tracked one merges with the last
retained waypoint; any other motion move is kept and its direction
becomes the tracked one. -/
def bogusVerdicts (sq : ℚ → ℚ) (st lastvec : ℚ × ℚ × ℚ) :
    List Position → List BogusVerdict
  | [] => []
  | m :: rest =>
    let dx := m.x - st.1
    let dy := m.y - st.2.1
    let dz := m.z - st.2.2
    if ¬m.state.moveMode = MoveMode.rapid ∧
        ¬m.state.moveMode = MoveMode.linear then
      BogusVerdict.dropNonMotion ::
        bogusVerdicts sq (m.x, m.y, m.z) (0, 0, 0) rest
    else if dx = 0 ∧ dz = 0 ∧ dy = 0 then
      BogusVerdict.dropZeroLen :: bogusVerdicts sq (m.x, m.y, m.z) lastvec rest
    else
      let norm := sq (dx ^ 2 + dy ^ 2 + dz ^ 2)
      let vec : ℚ × ℚ × ℚ := (dx / norm, dy / norm, dz / norm)
      if lastvec = vec then
        BogusVerdict.mergeWithLast ::
          bogusVerdicts sq (m.x, m.y, m.z) lastvec rest
      else
        BogusVerdict.keep :: bogusVerdicts sq (m.x, m.y, m.z) vec rest

/-- The editing semantics of the verdicts: kept waypoints are appended, a
merge replaces the last retained waypoint with the direction-sharing
successor, and dropped waypoints leave the output untouched.  A waypoint
is removed from the result exactly by the two drop verdicts and by a
following merge verdict. -/
def applyBogusVerdicts (acc : List Position) :
    List (Position × BogusVerdict) → List Position
  | [] => acc
  | (m, BogusVerdict.keep) :: rest => applyBogusVerdicts (acc ++ [m]) rest
  | (m, BogusVerdict.mergeWithLast) :: rest =>
      applyBogusVerdicts (setLast acc m) rest
  | (_, BogusVerdict.dropNonMotion) :: rest => applyBogusVerdicts acc rest
  | (_, BogusVerdict.dropZeroLen) :: rest => applyBogusVerdicts acc rest

/-- C7 counterexample.  On a linear move to (1,0,0), a zero-length repeat
of it, and a dwell at the same spot, OptBogusMoves keeps only the first
move: both the zero-length move and the dwell are removed from the output,
whereas the claim says they are retained.  (The square-root stand-in is
the constant 1, exact at the only norm taken, which is of the unit
delta.) -/
theorem c7_optBogusMoves_drops_dwell :
    optBogusMoves (fun _ => 1)
        [⟨State.lin, 1, 0, 0⟩, ⟨State.lin, 1, 0, 0⟩, ⟨stDwell, 1, 0, 0⟩] =
      [⟨State.lin, 1, 0, 0⟩] ∧
      Position.mk stDwell 1 0 0 ∉
        optBogusMoves (fun _ => 1)
          [⟨State.lin, 1, 0, 0⟩, ⟨State.lin, 1, 0, 0⟩, ⟨stDwell, 1, 0, 0⟩] := by
  have h : optBogusMoves (fun _ => 1)
      [⟨State.lin, 1, 0, 0⟩, ⟨State.lin, 1, 0, 0⟩, ⟨stDwell, 1, 0, 0⟩] =
      [⟨State.lin, 1, 0, 0⟩] := by
    norm_num [optBogusMoves, optBogusGo, setLast, State.lin, stDwell,
      State.default]
  refine ⟨h, ?_⟩
  rw [h]
  decide

/-- The output list built by the OptBogusMoves scan is a sublist of the
accumulator followed by the remaining input, whatever the square-root
stand-in and tracked state. -/
theorem optBogusGo_sublist (sq : ℚ → ℚ) (rest : List Position) :
    ∀ st lv npos, (optBogusGo sq st lv npos rest).Sublist (npos ++ rest) := by
  induction rest with
  | nil => intro st lv npos; simp [optBogusGo]
  | cons m rs ih =>
      intro st lv npos
      have hcons : List.Sublist (npos ++ rs) (npos ++ m :: rs) :=
        (List.sublist_cons_self m rs).append_left npos
      simp only [optBogusGo]
      split
      · exact (ih _ _ _).trans hcons
      split
      · exact (ih _ _ _).trans hcons
      split
      · refine (ih _ _ _).trans ?_
        have : List.Sublist ((setLast npos m) ++ rs) (npos ++ m :: rs) := by
          unfold setLast
          rw [List.append_assoc, List.singleton_append]
          exact (List.dropLast_sublist npos).append (List.Sublist.refl _)
        exact this
      · refine (ih _ _ _).trans ?_
        rw [List.append_assoc, List.singleton_append]

/-- Every waypoint in the accumulator and hence in the OptBogusMoves
output is a rapid or linear move: dwells and other non-motion waypoints
never enter the output. -/
theorem optBogusGo_motion (sq : ℚ → ℚ) (rest : List Position) :
    ∀ st lv npos,
      (∀ p ∈ npos, p.state.moveMode = MoveMode.rapid ∨
        p.state.moveMode = MoveMode.linear) →
      ∀ p ∈ optBogusGo sq st lv npos rest,
        p.state.moveMode = MoveMode.rapid ∨
          p.state.moveMode = MoveMode.linear := by
  induction rest with
  | nil => intro st lv npos hn; simpa [optBogusGo] using hn
  | cons m rs ih =>
      intro st lv npos hn
      simp only [optBogusGo]
      split
      · exact ih _ _ _ hn
      rename_i hmode
      have hm : m.state.moveMode = MoveMode.rapid ∨
          m.state.moveMode = MoveMode.linear := by
        rcases not_and_or.mp hmode with h | h
        · exact Or.inl (not_not.mp h)
        · exact Or.inr (not_not.mp h)
      split
      · exact ih _ _ _ hn
      split
      · refine ih _ _ _ ?_
        intro p hp
        rcases List.mem_append.mp hp with hp | hp
        · exact hn p ((List.dropLast_sublist npos).mem hp)
        · rcases List.mem_singleton.mp hp with rfl
          exact hm
      · refine ih _ _ _ ?_
        intro p hp
        rcases List.mem_append.mp hp with hp | hp
        · exact hn p hp
        · rcases List.mem_singleton.mp hp with rfl
          exact hm

/-- The OptBogusMoves scan is exactly the amended claim's classification
followed by its editing semantics, whatever the square-root stand-in,
the previous coordinates, the tracked direction and the accumulator. -/
theorem optBogusGo_eq_applyVerdicts (sq : ℚ → ℚ) (ps : List Position) :
    ∀ st lv npos, optBogusGo sq st lv npos ps =
      applyBogusVerdicts npos (ps.zip (bogusVerdicts sq st lv ps)) := by
  induction ps with
  | nil => intro st lv npos; rfl
  | cons m rest ih =>
      intro st lv npos
      simp only [optBogusGo, bogusVerdicts]
      split_ifs with h1 h2 h3
      · rw [ih (m.x, m.y, m.z) (0, 0, 0) npos]
        simp [applyBogusVerdicts, List.zip]
      · rw [ih (m.x, m.y, m.z) lv npos]
        simp [applyBogusVerdicts, List.zip]
      · rw [ih (m.x, m.y, m.z) lv (setLast npos m)]
        simp [applyBogusVerdicts, List.zip]
      · rw [ih (m.x, m.y, m.z) _ (npos ++ [m])]
        simp [applyBogusVerdicts, List.zip]

/-- C7 amended.  Bogus-move elimination removes a waypoint only when it is
a non-motion waypoint, a zero-length move, or the last retained waypoint
being replaced by a rapid or linear move whose unit direction equals the
tracked direction of the previous move (the merge into its successor);
every other motion move is retained.  Stated as: the four scan steps
behave exactly so — a non-motion waypoint is dropped and the tracked
direction continues as zero whatever it was, a zero-length move is
dropped with the direction kept, a direction-repeating move replaces only
the last retained waypoint, and every other motion move is appended and
its direction becomes the tracked one; the whole pass equals the
claim-side classification applied by the editing semantics; and
consequently the output is a sublist of the input in which every
waypoint is a rapid or linear move. -/
theorem c7_optBogusMoves_output (sq : ℚ → ℚ) (ps : List Position) :
    (∀ (st lv : ℚ × ℚ × ℚ) (npos : List Position) (m : Position)
        (rest : List Position),
      (¬m.state.moveMode = MoveMode.rapid ∧
          ¬m.state.moveMode = MoveMode.linear) →
        optBogusGo sq st lv npos (m :: rest) =
          optBogusGo sq (m.x, m.y, m.z) (0, 0, 0) npos rest) ∧
    (∀ (st lv : ℚ × ℚ × ℚ) (npos : List Position) (m : Position)
        (rest : List Position),
      ¬(¬m.state.moveMode = MoveMode.rapid ∧
          ¬m.state.moveMode = MoveMode.linear) →
      (m.x - st.1 = 0 ∧ m.z - st.2.2 = 0 ∧ m.y - st.2.1 = 0) →
        optBogusGo sq st lv npos (m :: rest) =
          optBogusGo sq (m.x, m.y, m.z) lv npos rest) ∧
    (∀ (st lv : ℚ × ℚ × ℚ) (npos : List Position) (m : Position)
        (rest : List Position),
      ¬(¬m.state.moveMode = MoveMode.rapid ∧
          ¬m.state.moveMode = MoveMode.linear) →
      ¬(m.x - st.1 = 0 ∧ m.z - st.2.2 = 0 ∧ m.y - st.2.1 = 0) →
      lv = moveDir sq st m →
        optBogusGo sq st lv npos (m :: rest) =
          optBogusGo sq (m.x, m.y, m.z) lv (setLast npos m) rest) ∧
    (∀ (st lv : ℚ × ℚ × ℚ) (npos : List Position) (m : Position)
        (rest : List Position),
      ¬(¬m.state.moveMode = MoveMode.rapid ∧
          ¬m.state.moveMode = MoveMode.linear) →
      ¬(m.x - st.1 = 0 ∧ m.z - st.2.2 = 0 ∧ m.y - st.2.1 = 0) →
      ¬lv = moveDir sq st m →
        optBogusGo sq st lv npos (m :: rest) =
          optBogusGo sq (m.x, m.y, m.z) (moveDir sq st m)
            (npos ++ [m]) rest) ∧
    optBogusMoves sq ps =
      applyBogusVerdicts []
        (ps.zip (bogusVerdicts sq (0, 0, 0) (0, 0, 0) ps)) ∧
    (optBogusMoves sq ps).Sublist ps ∧
      ∀ p ∈ optBogusMoves sq ps,
        p.state.moveMode = MoveMode.rapid ∨
          p.state.moveMode = MoveMode.linear := by
  refine ⟨?_, ?_, ?_, ?_, ?_, ?_, ?_⟩
  · intro st lv npos m rest h
    simp only [optBogusGo]
    rw [if_pos h]
  · intro st lv npos m rest hm hz
    simp only [optBogusGo]
    rw [if_neg hm, if_pos hz]
  · intro st lv npos m rest hm hz hd
    simp only [moveDir] at hd
    simp only [optBogusGo]
    rw [if_neg hm, if_neg hz, if_pos hd]
  · intro st lv npos m rest hm hz hd
    simp only [moveDir] at hd
    simp only [optBogusGo, moveDir]
    rw [if_neg hm, if_neg hz, if_neg hd]
  · exact optBogusGo_eq_applyVerdicts sq ps (0, 0, 0) (0, 0, 0) []
  · simpa using optBogusGo_sublist sq ps (0, 0, 0) (0, 0, 0) []
  · exact optBogusGo_motion sq ps (0, 0, 0) (0, 0, 0) [] (by simp)

/-- C7 amended, witness: the characterisation at concrete inputs — the
non-motion step equation discharged on a dwell waypoint (dropped, tracked
direction reset to zero), the classification equality, and the sublist
and motion-only conjuncts on a one-move toolpath. -/
theorem c7_optBogusMoves_output_witness :
    optBogusGo (fun _ => 1) (0, 0, 0) (0, 0, 0) [] [⟨stDwell, 1, 0, 0⟩] =
        optBogusGo (fun _ => 1) (1, 0, 0) (0, 0, 0) [] [] ∧
      optBogusMoves (fun _ => 1) [⟨State.lin, 1, 0, 0⟩] =
        applyBogusVerdicts []
          (([⟨State.lin, 1, 0, 0⟩] : List Position).zip
            (bogusVerdicts (fun _ => 1) (0, 0, 0) (0, 0, 0)
              [⟨State.lin, 1, 0, 0⟩])) ∧
      (optBogusMoves (fun _ => 1) [⟨State.lin, 1, 0, 0⟩]).Sublist
        [⟨State.lin, 1, 0, 0⟩] ∧
      ((⟨State.lin, 1, 0, 0⟩ : Position).state.moveMode = MoveMode.rapid ∨
        (⟨State.lin, 1, 0, 0⟩ : Position).state.moveMode = MoveMode.linear) :=
  ⟨(c7_optBogusMoves_output (fun _ => 1) []).1 (0, 0, 0) (0, 0, 0) []
      ⟨stDwell, 1, 0, 0⟩ [] (by decide),
    (c7_optBogusMoves_output (fun _ => 1) [⟨State.lin, 1, 0, 0⟩]).2.2.2.2.1,
    (c7_optBogusMoves_output (fun _ => 1) [⟨State.lin, 1, 0, 0⟩]).2.2.2.2.2.1,
    (c7_optBogusMoves_output (fun _ => 1) [⟨State.lin, 1, 0, 0⟩]).2.2.2.2.2.2
      ⟨State.lin, 1, 0, 0⟩
      (by norm_num [optBogusMoves, optBogusGo, setLast, State.lin,
        State.default])⟩

/-- The validation failures of OptRouteGrouping, keyed by the distinct
messages the Go code raises and then recovers into an error. -/
inductive RouteErr where
  | complexZMotion
  | multipleDrillFeedrates
  | rapidMoveInStock
  | moveAboveStock
  | incompleteFinalSet
  | noSafetyHeight
  | noDrillFeedrate
deriving DecidableEq

/-- Modelled from the spec: Euclidean norm of the utils vector, through
the square-root stand-in. -/
def Vec3.norm (sq : ℚ → ℚ) (v : Vec3) : ℚ :=
  sq (v.x ^ 2 + v.y ^ 2 + v.z ^ 2)

/-- The xyDiff helper of OptRouteGrouping: the norm of the difference of
the two vectors with its Z component zeroed, i.e. the lateral XY
distance. -/
def xyDiff (sq : ℚ → ℚ) (pos cur : Vec3) : ℚ :=
  Vec3.norm sq { cur.diff pos with z := 0 }

/-- The scan state of the grouping loop of OptRouteGrouping: previous
coordinates, collected down-groups, the group being collected, the
detected safety height and drill feedrate, and whether a group is open.
All numeric fields start at the Go zero values. -/
structure GroupSt where
  lastx : ℚ
  lasty : ℚ
  lastz : ℚ
  sets : List (List Position)
  curSet : List Position
  safetyHeight : ℚ
  drillSpeed : ℚ
  sequenceStarted : Bool
deriving DecidableEq

/-- The initial grouping state (Go zero values). -/
def GroupSt.init : GroupSt :=
  ⟨0, 0, 0, [], [], 0, 0, false⟩

/-- The shared tail of every non-skipping iteration of the grouping loop:
append the move to the open group (rejecting a move above stock), then
update the safety height and the previous coordinates. -/
def groupFinish (st : GroupSt) (m : Position) : Except RouteErr GroupSt :=
  let st1 :=
    if st.sequenceStarted then { st with curSet := st.curSet ++ [m] }
    else st
  if st.sequenceStarted ∧ m.z > 0 then Except.error RouteErr.moveAboveStock
  else Except.ok { st1 with
    safetyHeight := if m.z > st1.safetyHeight then m.z else st1.safetyHeight,
    lastx := m.x, lasty := m.y, lastz := m.z }

/-- One iteration of the grouping loop of OptRouteGrouping over a single
position, faithful to the source control flow: the combined-motion check
first; on an (X,Y)-stationary move either a down transition (opening a
group and recording the drill feedrate, rejecting a second, larger one) or
an up transition (closing the group and skipping the append) or a plain
move; on a lateral move the rapid-in-stock check; then the shared tail. -/
def groupStep (st : GroupSt) (m : Position) : Except RouteErr GroupSt :=
  if m.z ≠ st.lastz ∧ (m.x ≠ st.lastx ∨ m.y ≠ st.lasty) then
    Except.error RouteErr.complexZMotion
  else if m.x = st.lastx ∧ m.y = st.lasty then
    if st.lastz ≥ 0 ∧ m.z < 0 then
      if m.state.moveMode = MoveMode.linear ∧ m.state.feedrate > st.drillSpeed then
        if st.drillSpeed ≠ 0 then Except.error RouteErr.multipleDrillFeedrates
        else groupFinish { st with sequenceStarted := true, drillSpeed := m.state.feedrate } m
      else groupFinish { st with sequenceStarted := true } m
    else if st.lastz < 0 ∧ m.z ≥ 0 then
      Except.ok { st with
        sets := if st.sequenceStarted then st.sets ++ [st.curSet] else st.sets,
        sequenceStarted := false, curSet := [],
        safetyHeight := if m.z > st.safetyHeight then m.z else st.safetyHeight,
        lastx := m.x, lasty := m.y, lastz := m.z }
    else groupFinish st m
  else if m.z < 0 ∧ m.state.moveMode = MoveMode.rapid then
    Except.error RouteErr.rapidMoveInStock
  else groupFinish st m

/-- The whole grouping-and-validation phase of OptRouteGrouping: fold the
loop over the stored positions, then check that a safety height and a
drill feedrate were detected and that no improperly closed final group
remains. -/
def groupPhase (positions : List Position) : Except RouteErr GroupSt := do
  let st ← positions.foldlM groupStep GroupSt.init
  if st.safetyHeight = 0 then Except.error RouteErr.noSafetyHeight
  else if st.drillSpeed = 0 then Except.error RouteErr.noDrillFeedrate
  else
    match st.curSet with
    | [p] =>
        if p.z ≠ st.safetyHeight ∨ st.lastz ≠ st.safetyHeight ∨
            p.x ≠ 0 ∨ p.y ≠ 0 then
          Except.error RouteErr.incompleteFinalSet
        else Except.ok st
    | [] => Except.ok st
    | _ => Except.error RouteErr.incompleteFinalSet

/-- One candidate comparison of the group-selection loop of
OptRouteGrouping.  The source keeps the candidate when its first point is
strictly nearer in XY than the current selection, and otherwise — whenever
the distance test fails, not only on exact ties — still takes it if its
first point has greater Z. -/
def selectStep (sq : ℚ → ℚ) (curVec : Vec3) (sets : List (List Position))
    (acc : Int) (idx : Nat) : Int :=
  if acc = -1 then (idx : Int)
  else
    let np := (sets.getD idx []).headD Position.origin
    let pp := (sets.getD acc.toNat []).headD Position.origin
    let diff := xyDiff sq np.vec curVec
    let other := xyDiff sq pp.vec curVec
    if diff < other then (idx : Int)
    else if np.z > pp.z then (idx : Int)
    else acc

/-- The inner selection loop of OptRouteGrouping: fold the comparison over
all group indices.  The accumulator starts at the Go zero value 0 on the
first round and at -1 on every later round. -/
def selectIdx (sq : ℚ → ℚ) (curVec : Vec3) (sets : List (List Position))
    (init : Int) : Int :=
  (List.range sets.length).foldl (selectStep sq curVec sets) init

/-- The outer selection loop of OptRouteGrouping: repeatedly pick a group,
record it, move the current vector to its first point and erase it from
the pool.  Fuel equals the initial number of groups; the Go loop removes
exactly one group per round, so the fuel never runs out early. -/
def sortSetsGo (sq : ℚ → ℚ) :
    Nat → Vec3 → List (List Position) → Int → List (List Position)
  | 0, _, _, _ => []
  | fuel + 1, curVec, sets, selInit =>
    if sets.isEmpty then []
    else
      let sel := (selectIdx sq curVec sets selInit).toNat
      let chosen := sets.getD sel []
      chosen ::
        sortSetsGo sq fuel (chosen.headD Position.origin).vec
          (sets.eraseIdx sel) (-1)

/-- The moveTo closure of OptRouteGrouping: travel from the last rebuilt
waypoint to the start of the next group, either directly (with an aligning
XY step when needed) when laterally within tolerance, or by rising to the
safety height in rapid mode, travelling, and plunging linearly at the
drill feedrate. -/
def moveTo (sq : ℚ → ℚ) (tolerance safetyHeight drillSpeed : ℚ)
    (newPos : List Position) (pos : Position) : List Position :=
  let cur := newPos.getLastD Position.origin
  if xyDiff sq cur.vec pos.vec < tolerance then
    if cur.x ≠ pos.x ∨ cur.y ≠ pos.y then
      let step1 := { cur with state := { cur.state with moveMode := MoveMode.linear }, x := pos.x, y := pos.y }
      newPos ++ [step1, pos]
    else newPos ++ [pos]
  else
    let step1 := { cur with z := safetyHeight, state := { cur.state with moveMode := MoveMode.rapid } }
    let step2 := { step1 with x := pos.x, y := pos.y }
    let step3 := { step2 with z := pos.z, state := { step2.state with moveMode := MoveMode.linear, feedrate := drillSpeed } }
    newPos ++ [step1, step2, step3]

/-- Rebuilding one sorted group in OptRouteGrouping: moveTo for its first
point, plain appends for the rest. -/
def rebuildSet (sq : ℚ → ℚ) (tolerance safetyHeight drillSpeed : ℚ)
    (newPos : List Position) (s : List Position) : List Position :=
  match s with
  | [] => newPos
  | p :: rest => moveTo sq tolerance safetyHeight drillSpeed newPos p ++ rest

/-- OptRouteGrouping from the optimizer, up to the final assignment:
grouping and validation, greedy reordering, and reconstruction starting
from the first stored position.  Returns the replacement sequence, or the
validation failure the Go code recovers into an error. -/
def optRouteGroupingCore (sq : ℚ → ℚ) (positions : List Position)
    (tolerance : ℚ) : Except RouteErr (List Position) := do
  let st ← groupPhase positions
  let sorted := sortSetsGo sq st.sets.length ⟨0, 0, 0⟩ st.sets 0
  Except.ok (sorted.foldl
    (rebuildSet sq tolerance st.safetyHeight st.drillSpeed)
    [positions.headD Position.origin])

/-- OptRouteGrouping as the Go method behaves on the machine: the stored
positions are replaced only by the final assignment on success; every
failure is recovered at the boundary and returned, leaving the machine
untouched. -/
def optRouteGrouping (sq : ℚ → ℚ) (vm : Machine) (tolerance : ℚ) :
    Machine × Option RouteErr :=
  match optRouteGroupingCore sq vm.positions tolerance with
  | Except.ok ps => ({ vm with positions := ps }, Option.none)
  | Except.error e => (vm, Option.some e)

/-- C4.  Route grouping is atomic on failure: whenever OptRouteGrouping
reports an error, the stored waypoint sequence after the call is exactly
the sequence stored before it.  In the source this holds because every
validation failure aborts before the single final assignment to the
stored sequence; the embedding mirrors that structure. -/
theorem c4_optRouteGrouping_atomic_on_failure (sq : ℚ → ℚ) (vm : Machine)
    (tolerance : ℚ) (e : RouteErr)
    (h : (optRouteGrouping sq vm tolerance).2 = Option.some e) :
    (optRouteGrouping sq vm tolerance).1.positions = vm.positions := by
  unfold optRouteGrouping at h ⊢
  cases hc : optRouteGroupingCore sq vm.positions tolerance with
  | ok ps => rw [hc] at h; simp at h
  | error e2 => rfl

/-- C4 witness: on a machine whose toolpath is a single waypoint at the
origin the pass fails to detect a safety height and reports that error,
and the atomicity theorem applies: the stored sequence is unchanged. -/
theorem c4_optRouteGrouping_atomic_witness :
    (optRouteGrouping (fun _ => 0) mC6 0).2 =
        Option.some RouteErr.noSafetyHeight ∧
      (optRouteGrouping (fun _ => 0) mC6 0).1.positions = mC6.positions := by
  have h : (optRouteGrouping (fun _ => 0) mC6 0).2 =
      Option.some RouteErr.noSafetyHeight := by rfl
  exact ⟨h, c4_optRouteGrouping_atomic_on_failure (fun _ => 0) mC6 0
    RouteErr.noSafetyHeight h⟩

/-- An exact square-root stand-in for the C2 evaluation, agreeing with the
real square root at the two squared distances that occur (1 and 100). -/
def sqC2 : ℚ → ℚ :=
  fun q => if q = 1 then 1 else if q = 100 then 10 else 0

/-- First point of the near group: XY distance 1 from the origin, Z at
-1/2. -/
def pNear : Position :=
  ⟨State.lin, 1, 0, -(1 / 2)⟩

/-- First point of the far group: XY distance 10 from the origin, Z at
-1/10. -/
def pFar : Position :=
  ⟨State.lin, 10, 0, -(1 / 10)⟩

/-- C2.  With the tool at the origin and two groups whose first points lie
at XY distance 1 (Z = -1/2) and XY distance 10 (Z = -1/10), the selection
loop of OptRouteGrouping picks the group at distance 10 — and the full
reordering places it first — because the greater-Z comparison runs
whenever the distance test fails, not only on exact ties.  The claim (and
the comment above the source loop, which says the groups are sorted by
closeness) requires the group at distance 1 to be selected. -/
theorem c2_selection_prefers_higher_Z_over_nearer :
    xyDiff sqC2 pNear.vec ⟨0, 0, 0⟩ = 1 ∧
      xyDiff sqC2 pFar.vec ⟨0, 0, 0⟩ = 10 ∧
      selectIdx sqC2 ⟨0, 0, 0⟩ [[pNear], [pFar]] 0 = 1 ∧
      sortSetsGo sqC2 2 ⟨0, 0, 0⟩ [[pNear], [pFar]] 0 = [[pFar], [pNear]] := by
  have h2 : (List.range 2) = [0, 1] := rfl
  have h1 : (List.range 1) = [0] := rfl
  refine ⟨?_, ?_, ?_, ?_⟩ <;>
    norm_num [xyDiff, Vec3.norm, Vec3.diff, Position.vec, sqC2, pNear, pFar,
      selectIdx, selectStep, sortSetsGo, h2, h1, Position.origin,
      State.default, State.lin, List.eraseIdx]

/-- The maximum-Z scan shared by Return and FindSafetyHeight in utils.go,
starting from the Go zero value 0 (so never negative). -/
def maxZ (ps : List Position) : ℚ :=
  ps.foldl (fun acc m => if m.z > acc then m.z else acc) 0

/-- The conditional spindle/coolant clearing that Return applies to the
state of the waypoint ending the returned path. -/
def clearFlags (ds dc : Bool) (st : State) : State :=
  let st1 := if ds then { st with spindleEnabled := false } else st
  if dc then { st1 with mistCoolant := false, floodCoolant := false } else st1

/-- Return from utils.go: depending on the last waypoint, replaces its
flags in place, or appends a plunge, or travel then plunge, or lift then
travel then plunge, so that the path ends at the origin; the spindle and
coolant flags are cleared, when requested, only on the waypoint that ends
the returned path. -/
def returnPass (ps : List Position) (ds dc : Bool) : List Position :=
  let mz := maxZ ps
  match ps.getLast? with
  | Option.none => ps
  | Option.some lastPos =>
    if lastPos.x = 0 ∧ lastPos.y = 0 ∧ lastPos.z = 0 then
      ps.dropLast ++ [{ lastPos with state := clearFlags ds dc lastPos.state }]
    else if lastPos.x = 0 ∧ lastPos.y = 0 ∧ lastPos.z ≠ 0 then
      ps ++ [{ lastPos with z := 0, state := clearFlags ds dc { lastPos.state with moveMode := MoveMode.rapid } }]
    else if lastPos.z = mz then
      let move1 := { lastPos with x := 0, y := 0, state := { lastPos.state with moveMode := MoveMode.rapid } }
      let move2 := { move1 with z := 0, state := clearFlags ds dc move1.state }
      ps ++ [move1, move2]
    else
      let move1 := { lastPos with z := mz, state := { lastPos.state with moveMode := MoveMode.rapid } }
      let move2 := { move1 with x := 0, y := 0 }
      let move3 := { move2 with z := 0, state := clearFlags ds dc move2.state }
      ps ++ [move1, move2, move3]

/-- The spindle and coolant flags of a Modal State, the data Return may
clear. -/
def stFlags (st : State) : Bool × Bool × Bool :=
  (st.spindleEnabled, st.mistCoolant, st.floodCoolant)

/-- The spindle flag after clearFlags. -/
theorem clearFlags_spindleEnabled (ds dc : Bool) (st : State) :
    (clearFlags ds dc st).spindleEnabled = (!ds && st.spindleEnabled) := by
  unfold clearFlags
  cases ds <;> cases dc <;> simp

/-- The mist-coolant flag after clearFlags. -/
theorem clearFlags_mistCoolant (ds dc : Bool) (st : State) :
    (clearFlags ds dc st).mistCoolant = (!dc && st.mistCoolant) := by
  unfold clearFlags
  cases ds <;> cases dc <;> simp

/-- The flood-coolant flag after clearFlags. -/
theorem clearFlags_floodCoolant (ds dc : Bool) (st : State) :
    (clearFlags ds dc st).floodCoolant = (!dc && st.floodCoolant) := by
  unfold clearFlags
  cases ds <;> cases dc <;> simp

/-- C9.  For every non-empty toolpath, Return yields the untouched prefix
of all waypoints but the last, followed by a tail of 1 + n waypoints where
n is 0 when the last waypoint sits at the origin, 1 when only its Z is
non-zero, 2 when its Z equals the maximum Z of the path, and 3 otherwise
(so n waypoints are appended); every tail waypoint except the final one
keeps the spindle and coolant flags of the original last waypoint; and the
final waypoint sits exactly at (0,0,0) with its spindle flag cleared
exactly when requested and its coolant flags cleared exactly when
requested. -/
theorem c9_return_to_origin (ps : List Position) (ds dc : Bool)
    (lp : Position) (hl : ps.getLast? = some lp) :
    ∃ tail, returnPass ps ds dc = ps.dropLast ++ tail ∧
      (returnPass ps ds dc).length = ps.length +
        (if lp.x = 0 ∧ lp.y = 0 ∧ lp.z = 0 then 0
          else if lp.x = 0 ∧ lp.y = 0 then 1
          else if lp.z = maxZ ps then 2 else 3) ∧
      (∀ p ∈ tail.dropLast, stFlags p.state = stFlags lp.state) ∧
      ∃ q, tail.getLast? = some q ∧ q.x = 0 ∧ q.y = 0 ∧ q.z = 0 ∧
        stFlags q.state =
          (!ds && lp.state.spindleEnabled, !dc && lp.state.mistCoolant,
            !dc && lp.state.floodCoolant) := by
  obtain ⟨ys, rfl⟩ := List.getLast?_eq_some_iff.1 hl
  simp only [returnPass, List.getLast?_concat, List.dropLast_concat]
  by_cases h1 : lp.x = 0 ∧ lp.y = 0 ∧ lp.z = 0
  · rw [if_pos h1]
    refine ⟨[{ lp with state := clearFlags ds dc lp.state }], ?_⟩
    simp [h1, stFlags, clearFlags_spindleEnabled, clearFlags_mistCoolant,
      clearFlags_floodCoolant, h1.1, h1.2.1, h1.2.2]
  · rw [if_neg h1]
    by_cases h2 : lp.x = 0 ∧ lp.y = 0
    · have hz : lp.z ≠ 0 := fun hz => h1 ⟨h2.1, h2.2, hz⟩
      rw [if_pos ⟨h2.1, h2.2, hz⟩, if_pos h2]
      refine ⟨[lp, { lp with z := 0, state := clearFlags ds dc { lp.state with moveMode := MoveMode.rapid } }], ?_⟩
      simp [h2, hz, stFlags, clearFlags_spindleEnabled, clearFlags_mistCoolant,
        clearFlags_floodCoolant, h2.1, h2.2]
    · have h2' : ¬(lp.x = 0 ∧ lp.y = 0 ∧ lp.z ≠ 0) := fun h => h2 ⟨h.1, h.2.1⟩
      rw [if_neg h2', if_neg h2]
      by_cases h3 : lp.z = maxZ (ys ++ [lp])
      · rw [if_pos h3, if_pos h3]
        refine ⟨[lp, { lp with x := 0, y := 0, state := { lp.state with moveMode := MoveMode.rapid } }, { lp with x := 0, y := 0, z := 0, state := clearFlags ds dc { lp.state with moveMode := MoveMode.rapid } }], ?_⟩
        simp [h1, stFlags, clearFlags_spindleEnabled, clearFlags_mistCoolant,
          clearFlags_floodCoolant]
      · rw [if_neg h3, if_neg h3]
        refine ⟨[lp, { lp with z := maxZ (ys ++ [lp]), state := { lp.state with moveMode := MoveMode.rapid } }, { lp with x := 0, y := 0, z := maxZ (ys ++ [lp]), state := { lp.state with moveMode := MoveMode.rapid } }, { lp with x := 0, y := 0, z := 0, state := clearFlags ds dc { lp.state with moveMode := MoveMode.rapid } }], ?_⟩
        simp [h1, stFlags, clearFlags_spindleEnabled, clearFlags_mistCoolant,
          clearFlags_floodCoolant]

/-- C9 witness: the theorem applied to a one-waypoint toolpath resting at
(0, 0, 3) with both disable requests set; one rapid plunge is appended and
the flags are cleared on it. -/
theorem c9_return_to_origin_witness :
    ∃ tail, returnPass [⟨State.lin, 0, 0, 3⟩] true true =
        ([⟨State.lin, 0, 0, 3⟩] : List Position).dropLast ++ tail ∧
      (returnPass [⟨State.lin, 0, 0, 3⟩] true true).length =
        ([⟨State.lin, 0, 0, 3⟩] : List Position).length +
        (if (0 : ℚ) = 0 ∧ (0 : ℚ) = 0 ∧ (3 : ℚ) = 0 then 0
          else if (0 : ℚ) = 0 ∧ (0 : ℚ) = 0 then 1
          else if (3 : ℚ) = maxZ [⟨State.lin, 0, 0, 3⟩] then 2 else 3) ∧
      (∀ p ∈ tail.dropLast, stFlags p.state = stFlags State.lin) ∧
      ∃ q, tail.getLast? = some q ∧ q.x = 0 ∧ q.y = 0 ∧ q.z = 0 ∧
        stFlags q.state =
          (!true && State.lin.spindleEnabled, !true && State.lin.mistCoolant,
            !true && State.lin.floodCoolant) :=
  c9_return_to_origin [⟨State.lin, 0, 0, 3⟩] true true ⟨State.lin, 0, 0, 3⟩ rfl

/-- The running state of Info from utils.go: six extrema (all starting at
the Go zero value 0) and the distinct feedrates seen so far. -/
structure InfoSt where
  minx : ℚ
  miny : ℚ
  minz : ℚ
  maxx : ℚ
  maxy : ℚ
  maxz : ℚ
  feedrates : List ℚ
deriving DecidableEq

/-- The initial Info state (Go zero values). -/
def InfoSt.init : InfoSt :=
  ⟨0, 0, 0, 0, 0, 0, []⟩

/-- The per-axis else-if update of Info: lower the minimum if the
coordinate is below it, otherwise raise the maximum if above it,
otherwise leave both. -/
def minMaxUpd (v mn mx : ℚ) : ℚ × ℚ :=
  if v < mn then (v, mx) else if v > mx then (mn, v) else (mn, mx)

/-- One iteration of Info.  In the source the three axis updates and the
feedrate scan run in sequence, but each touches a disjoint part of the
state, so the step is their simultaneous assembly. -/
def infoStep (st : InfoSt) (pos : Position) : InfoSt :=
  let xu := minMaxUpd pos.x st.minx st.maxx
  let yu := minMaxUpd pos.y st.miny st.maxy
  let zu := minMaxUpd pos.z st.minz st.maxz
  let feeds := if pos.state.feedrate ∈ st.feedrates then st.feedrates
    else st.feedrates ++ [pos.state.feedrate]
  ⟨xu.1, yu.1, zu.1, xu.2, yu.2, zu.2, feeds⟩

/-- A min/max update only widens the pair. -/
theorem minMaxUpd_mono (v mn mx : ℚ) :
    (minMaxUpd v mn mx).1 ≤ mn ∧ mx ≤ (minMaxUpd v mn mx).2 := by
  unfold minMaxUpd
  split_ifs <;> constructor <;> first | rfl | linarith

/-- When the pair brackets zero, the updated pair brackets the consumed
value. -/
theorem minMaxUpd_bounds (v mn mx : ℚ) (h1 : mn ≤ 0) (h2 : 0 ≤ mx) :
    (minMaxUpd v mn mx).1 ≤ v ∧ v ≤ (minMaxUpd v mn mx).2 := by
  unfold minMaxUpd
  split_ifs <;> constructor <;> first | rfl | linarith

/-- Info from utils.go, as a fold over the stored waypoints. -/
def info (ps : List Position) : InfoSt :=
  ps.foldl infoStep InfoSt.init

/-- Every axis range of an Info state contains zero. -/
def infoInv (st : InfoSt) : Prop :=
  st.minx ≤ 0 ∧ 0 ≤ st.maxx ∧ st.miny ≤ 0 ∧ 0 ≤ st.maxy ∧
    st.minz ≤ 0 ∧ 0 ≤ st.maxz

/-- A waypoint lies within the axis ranges of an Info state. -/
def infoBounds (st : InfoSt) (p : Position) : Prop :=
  st.minx ≤ p.x ∧ p.x ≤ st.maxx ∧ st.miny ≤ p.y ∧ p.y ≤ st.maxy ∧
    st.minz ≤ p.z ∧ p.z ≤ st.maxz

/-- One Info step only widens the ranges. -/
theorem infoStep_mono (st : InfoSt) (p : Position) :
    (infoStep st p).minx ≤ st.minx ∧ st.maxx ≤ (infoStep st p).maxx ∧
      (infoStep st p).miny ≤ st.miny ∧ st.maxy ≤ (infoStep st p).maxy ∧
      (infoStep st p).minz ≤ st.minz ∧ st.maxz ≤ (infoStep st p).maxz := by
  obtain ⟨x1, x2⟩ := minMaxUpd_mono p.x st.minx st.maxx
  obtain ⟨y1, y2⟩ := minMaxUpd_mono p.y st.miny st.maxy
  obtain ⟨z1, z2⟩ := minMaxUpd_mono p.z st.minz st.maxz
  exact ⟨x1, x2, y1, y2, z1, z2⟩

/-- One Info step keeps the zero-containing invariant. -/
theorem infoStep_inv {st : InfoSt} (p : Position) (h : infoInv st) :
    infoInv (infoStep st p) := by
  obtain ⟨m1, m2, m3, m4, m5, m6⟩ := infoStep_mono st p
  obtain ⟨i1, i2, i3, i4, i5, i6⟩ := h
  exact ⟨le_trans m1 i1, le_trans i2 m2, le_trans m3 i3, le_trans i4 m4,
    le_trans m5 i5, le_trans i6 m6⟩

/-- Under the invariant, the waypoint consumed by an Info step lies within
the widened ranges. -/
theorem infoStep_bounds {st : InfoSt} (p : Position) (h : infoInv st) :
    infoBounds (infoStep st p) p := by
  obtain ⟨i1, i2, i3, i4, i5, i6⟩ := h
  obtain ⟨x1, x2⟩ := minMaxUpd_bounds p.x st.minx st.maxx i1 i2
  obtain ⟨y1, y2⟩ := minMaxUpd_bounds p.y st.miny st.maxy i3 i4
  obtain ⟨z1, z2⟩ := minMaxUpd_bounds p.z st.minz st.maxz i5 i6
  exact ⟨x1, x2, y1, y2, z1, z2⟩

/-- The whole Info fold only widens the ranges. -/
theorem info_foldl_mono (l : List Position) :
    ∀ st : InfoSt,
      (l.foldl infoStep st).minx ≤ st.minx ∧
        st.maxx ≤ (l.foldl infoStep st).maxx ∧
        (l.foldl infoStep st).miny ≤ st.miny ∧
        st.maxy ≤ (l.foldl infoStep st).maxy ∧
        (l.foldl infoStep st).minz ≤ st.minz ∧
        st.maxz ≤ (l.foldl infoStep st).maxz := by
  induction l with
  | nil =>
      intro st
      simp [List.foldl]
  | cons p l ih =>
      intro st
      obtain ⟨m1, m2, m3, m4, m5, m6⟩ := infoStep_mono st p
      obtain ⟨f1, f2, f3, f4, f5, f6⟩ := ih (infoStep st p)
      exact ⟨le_trans f1 m1, le_trans m2 f2, le_trans f3 m3,
        le_trans m4 f4, le_trans f5 m5, le_trans m6 f6⟩

/-- The Info fold preserves the invariant and bounds every waypoint it has
consumed. -/
theorem info_foldl_bounds (l : List Position) :
    ∀ st : InfoSt, infoInv st →
      infoInv (l.foldl infoStep st) ∧
        ∀ p ∈ l, infoBounds (l.foldl infoStep st) p := by
  induction l with
  | nil =>
      intro st h
      exact ⟨h, by simp⟩
  | cons q l ih =>
      intro st h
      have hq := infoStep_inv q h
      obtain ⟨hinv, hrest⟩ := ih (infoStep st q) hq
      refine ⟨hinv, ?_⟩
      intro p hp
      rcases List.mem_cons.mp hp with rfl | hp
      · obtain ⟨b1, b2, b3, b4, b5, b6⟩ := infoStep_bounds p h
        obtain ⟨f1, f2, f3, f4, f5, f6⟩ := info_foldl_mono l (infoStep st p)
        exact ⟨le_trans f1 b1, le_trans b2 f2, le_trans f3 b3,
          le_trans b4 f4, le_trans f5 b5, le_trans b6 f6⟩
      · exact hrest p hp

/-- C10.  For every toolpath, each axis range Info returns contains zero,
and every stored waypoint lies within the returned ranges: the else-if
update scheme is sound because each minimum never exceeds zero and each
maximum is never below zero. -/
theorem c10_info_ranges (ps : List Position) :
    infoInv (info ps) ∧ ∀ p ∈ ps, infoBounds (info ps) p := by
  have h0 : infoInv InfoSt.init := by
    refine ⟨le_refl 0, le_refl 0, le_refl 0, le_refl 0, le_refl 0, le_refl 0⟩
  exact info_foldl_bounds ps InfoSt.init h0

/-- C10 witness: the range theorem applied to a one-waypoint toolpath and
to its one member. -/
theorem c10_info_ranges_witness :
    infoInv (info [⟨State.lin, 1, 0, 0⟩]) ∧
      infoBounds (info [⟨State.lin, 1, 0, 0⟩]) ⟨State.lin, 1, 0, 0⟩ :=
  ⟨(c10_info_ranges [⟨State.lin, 1, 0, 0⟩]).1,
    (c10_info_ranges [⟨State.lin, 1, 0, 0⟩]).2 ⟨State.lin, 1, 0, 0⟩
      (by simp)⟩

end GoCNC
